import Mathlib

/-!
Shallow embedding of the advertisement broadcaster
(`internal/advertisement-operator/broadcaster.go`) and proofs about it.

Resource quantities (`k8s.io/apimachinery` `resource.Quantity`) are modelled
as exact integers, since `Quantity.Add` performs exact (non-floating)
arithmetic.  `corev1.ResourceList` is a Go map from resource-name strings to
quantities; it is modelled as an association list where setting a key conses
a new binding that shadows older ones, and lookup returns the most recent
binding — observationally the same map semantics.  Clock reads (`time.Now()`)
are modelled by an explicit clock stream `Nat → Int` (seconds), indexed by the
order of the calls inside `CreateAdvertisement`.  Go panics (out-of-range
string slicing, out-of-range indexing) are modelled by `Option`, with `none`
standing for the panic.
-/

namespace Broadcaster

/-- Exact integer model of `resource.Quantity` (its `Add` is exact). -/
abbrev Quantity := Int

/-- Model of `corev1.ContainerImage`: a list of names for one image. -/
structure ContainerImage where
  names : List String
deriving DecidableEq, Repr

/-- The fields of `corev1.Node` that the broadcaster reads:
`Spec.PodCIDR`, `Status.Allocatable` (cpu / memory / pods) and
`Status.Images`. -/
structure Node where
  podCIDR : String
  allocatableCpu : Quantity
  allocatableMemory : Quantity
  allocatablePods : Quantity
  images : List ContainerImage
deriving DecidableEq, Repr

/-- Model of `corev1.ResourceList` (a Go map keyed by resource-name strings). -/
abbrev ResourceList := List (String × Quantity)

/-- Go map assignment `m[k] = v`: the new binding shadows any older one. -/
def mapSet (m : ResourceList) (k : String) (v : Quantity) : ResourceList :=
  (k, v) :: m

/-- Go map lookup `m[k]`: the most recent binding for `k`, if any. -/
def lookupKey (m : ResourceList) (k : String) : Option Quantity :=
  (m.find? (fun q => decide (q.1 = k))).map Prod.snd

/-- Whether the Go map has key `k`. -/
def hasKey (m : ResourceList) (k : String) : Bool :=
  (lookupKey m k).isSome

/-- The loop body of `GetClusterResources`: for each node, add the
allocatable cpu / memory / pods into the accumulators and append the node's
images. -/
def clusterResourcesLoop :
    List Node → Quantity → Quantity → Quantity → List ContainerImage →
    Quantity × Quantity × Quantity × List ContainerImage
  | [], cpu, ram, pods, images => (cpu, ram, pods, images)
  | node :: rest, cpu, ram, pods, images =>
      clusterResourcesLoop rest (cpu + node.allocatableCpu)
        (ram + node.allocatableMemory) (pods + node.allocatablePods)
        (images ++ node.images)

/-- `GetClusterResources(nodes)`: sums allocatable cpu, ram and pods over all
nodes, collects the nodes' images, and builds the availability map with keys
`"cpu"`, `"memory"`, `"pods"`. -/
def GetClusterResources (nodes : List Node) :
    ResourceList × List ContainerImage :=
  let r := clusterResourcesLoop nodes 0 0 0 []
  let availability :=
    mapSet (mapSet (mapSet [] "cpu" r.1) "memory" r.2.1) "pods" r.2.2.1
  (availability, r.2.2.2)

/-- The image-pricing fold inside `ComputePrices`: for each image and each of
its names, set `prices[name] = 5`. -/
def pricesImageFold (images : List ContainerImage) (pr : ResourceList) :
    ResourceList :=
  images.foldl
    (fun pr2 img => img.names.foldl (fun pr3 nm => mapSet pr3 nm 5) pr2) pr

/-- `ComputePrices(images)`: `prices["cpu"] = 1`, `prices["memory"] = 2Gi`
(`2 * 2^30`), then one entry per image name, each priced `5`. -/
def ComputePrices (images : List ContainerImage) : ResourceList :=
  pricesImageFold images (mapSet (mapSet [] "cpu" 1) "memory" 2147483648)

/-- Go `strings.Split(s, sep)` for a single-character separator: empty
segments are kept and the empty string yields one empty segment. -/
def stringsSplit (s : String) (sep : Char) : List String :=
  (s.data.splitOn sep).map (fun cs => String.mk cs)

/-- `GetPodCIDR(nodes)`: reads `nodes[0].Spec.PodCIDR` (a Go panic on the
empty slice, modelled as `none`), splits it on `"."`; with at least two
tokens the result is `token[0] + "." + token[1] + "." + "0" + "." + "0/16"`,
otherwise the fixed default `"172.17.0.0/16"`. -/
def GetPodCIDR (nodes : List Node) : Option String :=
  match nodes with
  | [] => none
  | node :: _ =>
      let token := stringsSplit node.podCIDR '.'
      if 2 ≤ token.length then
        some (token.getD 0 "" ++ "." ++ token.getD 1 "" ++ "." ++ "0" ++ "."
          ++ "0/16")
      else
        some "172.17.0.0/16"

/-- Model of the `protocolv1.Advertisement` fields set by
`CreateAdvertisement`. -/
structure Advertisement where
  name : String
  namespaceName : String
  clusterId : String
  images : List ContainerImage
  availability : ResourceList
  prices : ResourceList
  podCIDR : String
  gatewayIP : String
  gatewayPrivateIP : String
  timestamp : Int
  timeToLive : Int
deriving DecidableEq, Repr

/-- The record literal built by `CreateAdvertisement` once every field value
is at hand: aggregated availability and images, prices, the derived pod CIDR,
and the two separate `time.Now()` reads — `clock 0` for `Timestamp` and
`clock 1` for `TimeToLive` (which adds 30 minutes = 1800 seconds). -/
def buildAdvertisement (nodes : List Node)
    (clusterId gatewayIP gatewayPrivateIp : String) (clock : Nat → Int)
    (cidr : String) : Advertisement :=
  { name := "advertisement-" ++ clusterId
    namespaceName := "default"
    clusterId := clusterId
    images := (GetClusterResources nodes).2
    availability := (GetClusterResources nodes).1
    prices := ComputePrices (GetClusterResources nodes).2
    podCIDR := cidr
    gatewayIP := gatewayIP
    gatewayPrivateIP := gatewayPrivateIp
    timestamp := clock 0
    timeToLive := clock 1 + 30 * 60 }

/-- `CreateAdvertisement(nodes, clusterId, gatewayIP, gatewayPrivateIp)`:
aggregates resources, computes prices, and composes the advertisement.
All of this is pure; the one Go panic in it — `GetPodCIDR` indexing the
empty node slice — propagates as `none`. -/
def CreateAdvertisement (nodes : List Node)
    (clusterId gatewayIP gatewayPrivateIp : String) (clock : Nat → Int) :
    Option Advertisement :=
  (GetPodCIDR nodes).map
    (buildAdvertisement nodes clusterId gatewayIP gatewayPrivateIp clock)

/-- Go `strings.HasPrefix(s, p)`. -/
def goHasPrefixStr (s p : String) : Bool :=
  decide (s.data.take p.data.length = p.data)

/-- Go string slicing `s[i:]`: `none` models the out-of-range panic when
`i > len(s)`. -/
def goSliceFrom (s : String) (i : Nat) : Option String :=
  if i ≤ s.data.length then some (String.mk (s.data.drop i)) else none

/-- The peer-id extraction in `GenerateAdvertisement`:
`cm.Name[len("foreign-kubeconfig-"):]`. -/
def extractForeignClusterId (name : String) : Option String :=
  goSliceFrom name ("foreign-kubeconfig-".data.length)

/-- The discovery filter in `StartBroadcaster`: keep the config maps whose
name starts with `"foreign-kubeconfig"`, each of which gets its own
`GenerateAdvertisement` task. -/
def selectPeerRecords (names : List String) : List String :=
  names.filter (fun n => goHasPrefixStr n "foreign-kubeconfig")

/-- One step of the connect loop
`for retry = 0; retry < 3; retry++ { ... }` in `GenerateAdvertisement`:
`conn retry` tells whether `pkg.NewCRDClient` succeeds on that attempt; each
failure sleeps one minute (counted in `sleeps`). Returns the final value of
`retry` and the number of one-minute sleeps. -/
def connectLoopAux (conn : Nat → Bool) :
    Nat → Nat → Nat → Nat × Nat
  | retry, sleeps, 0 => (retry, sleeps)
  | retry, sleeps, remaining + 1 =>
      if conn retry then (retry, sleeps)
      else connectLoopAux conn (retry + 1) (sleeps + 1) remaining

/-- The whole connect loop: three attempts starting at `retry = 0`. -/
def connectLoop (conn : Nat → Bool) : Nat × Nat :=
  connectLoopAux conn 0 0 3

/-- What the environment does in one iteration of the publish loop:
listing local nodes fails, or the publish to the peer fails, or it
succeeds. -/
inductive CycleEvent where
  | listFail
  | publishFail
  | publishOk
deriving DecidableEq, Repr

/-- Observable state of one `GenerateAdvertisement` publish loop:
`onceFired` is the `sync.Once` latch, `watcherStarts` counts executions of
the `once.Do` body (`WatchAdvertisement` launches), `publishes` counts
successful publishes, `cycleSleeps` counts ten-minute sleeps, and
`listFailExit` records that the task returned because listing nodes
failed. -/
structure LoopResult where
  onceFired : Bool
  watcherStarts : Nat
  publishes : Nat
  cycleSleeps : Nat
  listFailExit : Bool
deriving DecidableEq, Repr

/-- The infinite `for { ... }` publish loop of `GenerateAdvertisement`, run
against a finite trace of environment events (a prefix of its execution).
A node-list failure makes the function return at once; a publish failure is
logged and the loop sleeps and continues; a publish success bumps the
`sync.Once` latch (starting the watcher only the first time) and the loop
sleeps and continues. -/
def publishLoop : LoopResult → List CycleEvent → LoopResult
  | s, [] => s
  | s, ev :: rest =>
      match ev with
      | .listFail => { s with listFailExit := true }
      | .publishFail =>
          publishLoop { s with cycleSleeps := s.cycleSleeps + 1 } rest
      | .publishOk =>
          if s.onceFired then
            publishLoop
              { s with publishes := s.publishes + 1
                       cycleSleeps := s.cycleSleeps + 1 } rest
          else
            publishLoop
              { s with onceFired := true
                       watcherStarts := s.watcherStarts + 1
                       publishes := s.publishes + 1
                       cycleSleeps := s.cycleSleeps + 1 } rest

/-- The publish loop's initial state. -/
def initialLoopState : LoopResult :=
  { onceFired := false, watcherStarts := 0, publishes := 0, cycleSleeps := 0,
    listFailExit := false }

/-- Observable outcome of one whole `GenerateAdvertisement` task:
the number of one-minute connect sleeps, whether a client to the peer was
created, and the publish-loop observables. -/
structure TaskResult where
  connectSleeps : Nat
  connected : Bool
  watcherStarts : Nat
  publishes : Nat
  cycleSleeps : Nat
  listFailExit : Bool
deriving DecidableEq, Repr

/-- One `GenerateAdvertisement` task: run the connect loop; if `retry == 3`
(all three attempts failed) log and return without ever publishing;
otherwise enter the publish loop on the event trace. -/
def GenerateAdvertisementTask (conn : Nat → Bool)
    (cycles : List CycleEvent) : TaskResult :=
  let c := connectLoop conn
  if c.1 = 3 then
    { connectSleeps := c.2, connected := false, watcherStarts := 0,
      publishes := 0, cycleSleeps := 0, listFailExit := false }
  else
    let r := publishLoop initialLoopState cycles
    { connectSleeps := c.2, connected := true,
      watcherStarts := r.watcherStarts, publishes := r.publishes,
      cycleSleeps := r.cycleSleeps, listFailExit := r.listFailExit }

/-- The cycles of a trace that the publish loop actually executes in full:
everything before the first node-list failure. -/
def executedCycles (cycles : List CycleEvent) : List CycleEvent :=
  cycles.takeWhile (fun e => !(e == CycleEvent.listFail))

/-- A concrete node used as evaluation input. -/
def nodeA : Node :=
  { podCIDR := "10.32.0.5/24", allocatableCpu := 4,
    allocatableMemory := 8589934592, allocatablePods := 110,
    images := [{ names := ["registry.example/app-v1"] }] }

/-- A concrete node whose pod CIDR has no dot. -/
def nodeB : Node :=
  { podCIDR := "nodots", allocatableCpu := 2, allocatableMemory := 1024,
    allocatablePods := 10, images := [] }

/-- The advertisement `CreateAdvertisement` produces for `[nodeA]`, cluster
id `"cid"`, gateways `"gw"` / `"gwp"` and a clock frozen at `0`. -/
def advA : Advertisement :=
  { name := "advertisement-cid"
    namespaceName := "default"
    clusterId := "cid"
    images := [{ names := ["registry.example/app-v1"] }]
    availability := [("pods", 110), ("memory", 8589934592), ("cpu", 4)]
    prices := [("registry.example/app-v1", 5), ("memory", 2147483648),
      ("cpu", 1)]
    podCIDR := "10.32.0.0/16"
    gatewayIP := "gw"
    gatewayPrivateIP := "gwp"
    timestamp := 0
    timeToLive := 1800 }

/-! ### Helper lemmas -/

/-- Closed form of the `GetClusterResources` loop: each accumulator receives
the corresponding sum (resp. concatenation) over the remaining nodes. -/
theorem clusterResourcesLoop_spec (nodes : List Node) :
    ∀ (c r p : Quantity) (imgs : List ContainerImage),
      clusterResourcesLoop nodes c r p imgs =
        (c + (nodes.map Node.allocatableCpu).sum,
         r + (nodes.map Node.allocatableMemory).sum,
         p + (nodes.map Node.allocatablePods).sum,
         imgs ++ (nodes.map Node.images).flatten) := by
  induction nodes with
  | nil => intro c r p imgs; simp [clusterResourcesLoop]
  | cons n rest ih =>
      intro c r p imgs
      simp [clusterResourcesLoop, ih, add_assoc]

/-- Looking up `"cpu"` in the availability map built by
`GetClusterResources`. -/
theorem lookupKey_avail_cpu (c r p : Quantity) :
    lookupKey (mapSet (mapSet (mapSet [] "cpu" c) "memory" r) "pods" p)
      "cpu" = some c := rfl

/-- Looking up `"memory"` in the availability map built by
`GetClusterResources`. -/
theorem lookupKey_avail_memory (c r p : Quantity) :
    lookupKey (mapSet (mapSet (mapSet [] "cpu" c) "memory" r) "pods" p)
      "memory" = some r := rfl

/-- Looking up `"pods"` in the availability map built by
`GetClusterResources`. -/
theorem lookupKey_avail_pods (c r p : Quantity) :
    lookupKey (mapSet (mapSet (mapSet [] "cpu" c) "memory" r) "pods" p)
      "pods" = some p := rfl

/-- Setting key `k` makes `k` present and leaves presence of other keys
unchanged. -/
theorem hasKey_mapSet_or (m : ResourceList) (k k' : String) (v : Quantity) :
    hasKey (mapSet m k v) k' = (decide (k = k') || hasKey m k') := by
  by_cases h : k = k'
  · subst h
    simp [hasKey, lookupKey, mapSet, List.find?_cons_of_pos]
  · simp [hasKey, lookupKey, mapSet, List.find?_cons_of_neg, h]

/-- The per-image pricing fold keeps every key that is already present. -/
theorem hasKey_namesFold_of (names : List String) :
    ∀ (pr : ResourceList) (k : String), hasKey pr k = true →
      hasKey (names.foldl (fun pr3 nm => mapSet pr3 nm 5) pr) k = true := by
  induction names with
  | nil => intro pr k h; simpa using h
  | cons nm rest ih =>
      intro pr k h
      rw [List.foldl_cons]
      exact ih _ k (by rw [hasKey_mapSet_or, h, Bool.or_true])

/-- After the per-image pricing fold, every priced name is a present key. -/
theorem hasKey_namesFold_mem (names : List String) :
    ∀ (pr : ResourceList) (k : String), k ∈ names →
      hasKey (names.foldl (fun pr3 nm => mapSet pr3 nm 5) pr) k = true := by
  induction names with
  | nil => intro pr k h; simp at h
  | cons nm rest ih =>
      intro pr k h
      rw [List.foldl_cons]
      rcases List.mem_cons.mp h with h1 | h2
      · subst h1
        exact hasKey_namesFold_of rest _ _ (by rw [hasKey_mapSet_or]; simp)
      · exact ih _ _ h2

/-- The per-image pricing fold does not create keys it was not given. -/
theorem hasKey_namesFold_notMem (names : List String) :
    ∀ (pr : ResourceList) (k : String), k ∉ names →
      hasKey (names.foldl (fun pr3 nm => mapSet pr3 nm 5) pr) k =
        hasKey pr k := by
  induction names with
  | nil => intro pr k _; rfl
  | cons nm rest ih =>
      intro pr k h
      have hne : ¬ (nm = k) :=
        fun he => h (by rw [← he]; exact List.mem_cons_self _ _)
      rw [List.foldl_cons, ih _ _ (fun hh => h (List.mem_cons_of_mem _ hh)),
        hasKey_mapSet_or, decide_eq_false hne, Bool.false_or]

/-- Unfolding one image of the pricing fold. -/
theorem pricesImageFold_cons (img : ContainerImage)
    (rest : List ContainerImage) (pr : ResourceList) :
    pricesImageFold (img :: rest) pr =
      pricesImageFold rest
        (img.names.foldl (fun pr3 nm => mapSet pr3 nm 5) pr) := rfl

/-- The pricing fold keeps every key that is already present. -/
theorem hasKey_pricesImageFold_of (images : List ContainerImage) :
    ∀ (pr : ResourceList) (k : String), hasKey pr k = true →
      hasKey (pricesImageFold images pr) k = true := by
  induction images with
  | nil => intro pr k h; simpa [pricesImageFold] using h
  | cons img rest ih =>
      intro pr k h
      rw [pricesImageFold_cons]
      exact ih _ _ (hasKey_namesFold_of _ _ _ h)

/-- Every name of every image becomes a present key of the price list. -/
theorem hasKey_pricesImageFold_mem (images : List ContainerImage) :
    ∀ (pr : ResourceList) (img : ContainerImage) (nm : String),
      img ∈ images → nm ∈ img.names →
      hasKey (pricesImageFold images pr) nm = true := by
  induction images with
  | nil => intro pr img nm h _; simp at h
  | cons i rest ih =>
      intro pr img nm hi hn
      rw [pricesImageFold_cons]
      rcases List.mem_cons.mp hi with h1 | h2
      · subst h1
        exact hasKey_pricesImageFold_of rest _ _
          (hasKey_namesFold_mem _ _ _ hn)
      · exact ih _ _ _ h2 hn

/-- The pricing fold creates no key besides the image names it was given. -/
theorem hasKey_pricesImageFold_notMem (images : List ContainerImage) :
    ∀ (pr : ResourceList) (k : String),
      (∀ img ∈ images, k ∉ img.names) →
      hasKey (pricesImageFold images pr) k = hasKey pr k := by
  induction images with
  | nil => intro pr k _; rfl
  | cons i rest ih =>
      intro pr k h
      rw [pricesImageFold_cons,
        ih _ _ (fun img hm => h img (List.mem_cons_of_mem _ hm)),
        hasKey_namesFold_notMem _ _ _ (h i (List.mem_cons_self _ _))]

/-- Unfolding the publish loop on a node-list failure. -/
theorem publishLoop_listFail_cons (s : LoopResult) (rest : List CycleEvent) :
    publishLoop s (CycleEvent.listFail :: rest) =
      { s with listFailExit := true } := rfl

/-- Unfolding the publish loop on a failed publish. -/
theorem publishLoop_publishFail_cons (s : LoopResult)
    (rest : List CycleEvent) :
    publishLoop s (CycleEvent.publishFail :: rest) =
      publishLoop { s with cycleSleeps := s.cycleSleeps + 1 } rest := rfl

/-- Unfolding the publish loop on a successful publish. -/
theorem publishLoop_publishOk_cons (s : LoopResult)
    (rest : List CycleEvent) :
    publishLoop s (CycleEvent.publishOk :: rest) =
      if s.onceFired then
        publishLoop
          { s with publishes := s.publishes + 1
                   cycleSleeps := s.cycleSleeps + 1 } rest
      else
        publishLoop
          { s with onceFired := true
                   watcherStarts := s.watcherStarts + 1
                   publishes := s.publishes + 1
                   cycleSleeps := s.cycleSleeps + 1 } rest := rfl

/-- Events after a node-list failure are never executed: the publish loop
stops right there, with the failure recorded and nothing else changed. -/
theorem publishLoop_append_listFail (pre : List CycleEvent) :
    ∀ (s : LoopResult) (rest : List CycleEvent),
      publishLoop s (pre ++ CycleEvent.listFail :: rest) =
        { publishLoop s pre with listFailExit := true } := by
  induction pre with
  | nil => intro s rest; rfl
  | cons ev pre ih =>
      intro s rest
      cases ev with
      | listFail => rfl
      | publishFail =>
          simp only [List.cons_append, publishLoop_publishFail_cons]
          exact ih _ _
      | publishOk =>
          simp only [List.cons_append, publishLoop_publishOk_cons]
          by_cases h : s.onceFired
          · rw [if_pos h, if_pos h]
            exact ih _ _
          · rw [if_neg h, if_neg h]
            exact ih _ _

/-- Executed prefix of a trace headed by a node-list failure. -/
theorem executedCycles_listFail (rest : List CycleEvent) :
    executedCycles (CycleEvent.listFail :: rest) = [] := rfl

/-- Executed prefix of a trace headed by a failed publish. -/
theorem executedCycles_publishFail (rest : List CycleEvent) :
    executedCycles (CycleEvent.publishFail :: rest) =
      CycleEvent.publishFail :: executedCycles rest := rfl

/-- Executed prefix of a trace headed by a successful publish. -/
theorem executedCycles_publishOk (rest : List CycleEvent) :
    executedCycles (CycleEvent.publishOk :: rest) =
      CycleEvent.publishOk :: executedCycles rest := rfl

/-- How many times the publish loop runs the `once.Do` body: exactly once if
the latch is still open and some executed cycle publishes successfully,
never otherwise. -/
theorem publishLoop_watcherStarts (cycles : List CycleEvent) :
    ∀ s : LoopResult,
      (publishLoop s cycles).watcherStarts =
        s.watcherStarts +
          (if s.onceFired = false ∧
              CycleEvent.publishOk ∈ executedCycles cycles
            then 1 else 0) := by
  induction cycles with
  | nil => intro s; simp [publishLoop, executedCycles]
  | cons ev rest ih =>
      intro s
      cases ev with
      | listFail =>
          rw [executedCycles_listFail, publishLoop_listFail_cons]
          simp
      | publishFail =>
          rw [executedCycles_publishFail, publishLoop_publishFail_cons, ih]
          simp
      | publishOk =>
          rw [executedCycles_publishOk, publishLoop_publishOk_cons]
          by_cases h : s.onceFired
          · rw [if_pos h, ih]
            simp [h]
          · rw [if_neg h, ih]
            simp at h
            simp [h]

/-! ### Claim theorems -/

/-- C3: discovery in `StartBroadcaster` selects every config-map record whose
name carries the recognized `"foreign-kubeconfig"` marker — including a
record named exactly by that bare marker — and for the bare-marker record the
peer-id extraction `cm.Name[19:]` in `GenerateAdvertisement` is out of range
(`none` models the Go slice panic), instead of the record being skipped:
the code crashes on it rather than failing softly. -/
theorem C3_malformed_record_crashes :
    selectPeerRecords
        ["foreign-kubeconfig", "foreign-kubeconfig-cluster2", "other"] =
      ["foreign-kubeconfig", "foreign-kubeconfig-cluster2"] ∧
    extractForeignClusterId "foreign-kubeconfig" = none ∧
    extractForeignClusterId "foreign-kubeconfig-cluster2" =
      some "cluster2" := by
  refine ⟨?_, ?_, ?_⟩ <;> decide

/-- C5: pod-address-block derivation uses the first node's assigned block;
with at least two dot-separated tokens the result is a `/16` anchored at the
first two tokens (in particular `"10.32.0.5/24"` gives `"10.32.0.0/16"`);
with fewer than two tokens the result is the fixed default block. -/
theorem C5_pod_cidr_derivation (node : Node) (rest : List Node) :
    (∀ (t0 t1 : String) (ts : List String),
        stringsSplit node.podCIDR '.' = t0 :: t1 :: ts →
        GetPodCIDR (node :: rest) =
          some (t0 ++ "." ++ t1 ++ "." ++ "0" ++ "." ++ "0/16")) ∧
    ((stringsSplit node.podCIDR '.').length < 2 →
        GetPodCIDR (node :: rest) = some "172.17.0.0/16") ∧
    (node.podCIDR = "10.32.0.5/24" →
        GetPodCIDR (node :: rest) = some "10.32.0.0/16") := by
  refine ⟨?_, ?_, ?_⟩
  · intro t0 t1 ts h
    have hl : 2 ≤ (t0 :: t1 :: ts).length := by
      simp only [List.length_cons]
      omega
    simp [GetPodCIDR, h, hl]
  · intro h
    have hn : ¬ 2 ≤ (stringsSplit node.podCIDR '.').length := by omega
    simp [GetPodCIDR, hn]
  · intro h
    simp only [GetPodCIDR, h]
    decide

/-- C5 witness: the two derivation branches on concrete nodes. -/
theorem C5_pod_cidr_derivation_witness :
    GetPodCIDR [nodeA] = some "10.32.0.0/16" ∧
    GetPodCIDR [nodeB] = some "172.17.0.0/16" :=
  ⟨(C5_pod_cidr_derivation nodeA []).2.2 rfl,
   (C5_pod_cidr_derivation nodeB []).2.1 (by decide)⟩

/-- C6: the cpu, memory and pod totals of the snapshot returned by
`GetClusterResources` are the exact sums of the nodes' allocatable values,
and the empty node list gives a zero-valued snapshot and an empty image
list rather than an error. -/
theorem C6_aggregate_totals :
    (∀ nodes : List Node,
      lookupKey (GetClusterResources nodes).1 "cpu" =
          some ((nodes.map Node.allocatableCpu).sum) ∧
      lookupKey (GetClusterResources nodes).1 "memory" =
          some ((nodes.map Node.allocatableMemory).sum) ∧
      lookupKey (GetClusterResources nodes).1 "pods" =
          some ((nodes.map Node.allocatablePods).sum)) ∧
    (GetClusterResources []).2 = [] ∧
    lookupKey (GetClusterResources []).1 "cpu" = some 0 ∧
    lookupKey (GetClusterResources []).1 "memory" = some 0 ∧
    lookupKey (GetClusterResources []).1 "pods" = some 0 := by
  refine ⟨fun nodes => ?_, by decide, by decide, by decide, by decide⟩
  have h := clusterResourcesLoop_spec nodes 0 0 0 []
  refine ⟨?_, ?_, ?_⟩ <;>
    simp [GetClusterResources, h, lookupKey_avail_cpu, lookupKey_avail_memory,
      lookupKey_avail_pods]

/-- C7 counterexample: when the same image is reported by two nodes it
appears twice in the collection `GetClusterResources` returns — the
collection is not a set. -/
theorem C7_image_duplicates_counterexample :
    ((GetClusterResources [nodeA, nodeA]).2).count
        ({ names := ["registry.example/app-v1"] } : ContainerImage) = 2 := by
  decide

/-- C7 (amended): the image collection returned by aggregation is the
concatenation of the nodes' image lists; every image reference observed on a
node appears in it, but a reference reported by several nodes is kept once
per report (duplicates are not removed). -/
theorem C7_images_concatenation (nodes : List Node) :
    (GetClusterResources nodes).2 = (nodes.map Node.images).flatten ∧
    (∀ node ∈ nodes, ∀ img ∈ node.images,
      img ∈ (GetClusterResources nodes).2) := by
  have h := clusterResourcesLoop_spec nodes 0 0 0 []
  have he : (GetClusterResources nodes).2 =
      (nodes.map Node.images).flatten := by
    simp [GetClusterResources, h]
  refine ⟨he, ?_⟩
  intro node hn img hi
  rw [he]
  exact List.mem_flatten.mpr ⟨node.images, List.mem_map_of_mem _ hn, hi⟩

/-- C7 witness: a concrete image of a concrete node is in the collection. -/
theorem C7_images_concatenation_witness :
    ({ names := ["registry.example/app-v1"] } : ContainerImage) ∈
      (GetClusterResources [nodeA, nodeA]).2 :=
  (C7_images_concatenation [nodeA, nodeA]).2 nodeA (by decide)
    { names := ["registry.example/app-v1"] } (by decide)

/-- C10: `GetPodCIDR` reads the first element of the node list
unconditionally, so `CreateAdvertisement` produces an advertisement exactly
when the node list is non-empty; on the empty list the index access fails
(`none`, the Go panic) instead of producing a zero-capacity advertisement. -/
theorem C10_nonempty_precondition (nodes : List Node)
    (cid gip gpip : String) (clock : Nat → Int) :
    (nodes ≠ [] →
      (CreateAdvertisement nodes cid gip gpip clock).isSome = true) ∧
    CreateAdvertisement [] cid gip gpip clock = none ∧
    GetPodCIDR [] = none := by
  refine ⟨?_, rfl, rfl⟩
  intro h
  cases nodes with
  | nil => exact absurd rfl h
  | cons n rest =>
      by_cases hc : 2 ≤ (stringsSplit n.podCIDR '.').length <;>
        simp [CreateAdvertisement, GetPodCIDR, hc]

/-- C10 witness: a non-empty node list yields an advertisement. -/
theorem C10_nonempty_precondition_witness :
    (CreateAdvertisement [nodeA] "cid" "gw" "gwp" (fun _ => 0)).isSome =
      true :=
  (C10_nonempty_precondition [nodeA] "cid" "gw" "gwp" (fun _ => 0)).1
    (by decide)

/-- C2 counterexample: the capacity snapshot carries the pod-slot kind but
the price list computed in the same cycle has no entry for it. -/
theorem C2_prices_missing_pods_counterexample :
    hasKey (GetClusterResources []).1 "pods" = true ∧
    hasKey (ComputePrices (GetClusterResources []).2) "pods" = false := by
  refine ⟨?_, ?_⟩ <;> decide

/-- C2 (amended): for every node list, the price list produced for the
advertisement has an entry for the CPU kind, an entry for the memory kind
and an entry for every name of every image in the image set; it has no
entry for the pod-slot kind (unless some image is literally named
`"pods"`), even though the capacity snapshot always carries that kind. -/
theorem C2_price_list_keys (nodes : List Node) :
    hasKey (ComputePrices (GetClusterResources nodes).2) "cpu" = true ∧
    hasKey (ComputePrices (GetClusterResources nodes).2) "memory" = true ∧
    (∀ img ∈ (GetClusterResources nodes).2, ∀ nm ∈ img.names,
        hasKey (ComputePrices (GetClusterResources nodes).2) nm = true) ∧
    ((∀ img ∈ (GetClusterResources nodes).2, "pods" ∉ img.names) →
        hasKey (ComputePrices (GetClusterResources nodes).2) "pods" =
          false) := by
  refine ⟨?_, ?_, ?_, ?_⟩
  · exact hasKey_pricesImageFold_of _ _ _ (by decide)
  · exact hasKey_pricesImageFold_of _ _ _ (by decide)
  · intro img hi nm hn
    exact hasKey_pricesImageFold_mem _ _ _ _ hi hn
  · intro h
    exact (hasKey_pricesImageFold_notMem _ _ _ h).trans (by decide)

/-- C2 witness: the amended key facts evaluated on one concrete node. -/
theorem C2_price_list_keys_witness :
    hasKey (ComputePrices (GetClusterResources [nodeA]).2) "cpu" = true ∧
    hasKey (ComputePrices (GetClusterResources [nodeA]).2)
      "registry.example/app-v1" = true ∧
    hasKey (ComputePrices (GetClusterResources [nodeA]).2) "pods" =
      false :=
  ⟨(C2_price_list_keys [nodeA]).1,
   (C2_price_list_keys [nodeA]).2.2.1
     { names := ["registry.example/app-v1"] } (by decide)
     "registry.example/app-v1" (by decide),
   (C2_price_list_keys [nodeA]).2.2.2 (by decide)⟩

/-- C4: with both `time.Now()` reads returning `now`, the built
advertisement's creation timestamp is `now` and its expiry is exactly
`now + 30` minutes, and any two builds whose clock reads agree on `now`
yield identical advertisement content. -/
theorem C4_advertisement_timestamps (nodes : List Node)
    (cid gip gpip : String) (clock clock' : Nat → Int) (now : Int)
    (adv : Advertisement) (h0 : clock 0 = now) (h1 : clock 1 = now)
    (hadv : CreateAdvertisement nodes cid gip gpip clock = some adv) :
    (adv.timestamp = now ∧ adv.timeToLive = now + 30 * 60) ∧
    (clock' 0 = now → clock' 1 = now →
      CreateAdvertisement nodes cid gip gpip clock' = some adv) := by
  rcases hG : GetPodCIDR nodes with _ | cidr
  · rw [CreateAdvertisement, hG] at hadv
    cases hadv
  · rw [CreateAdvertisement, hG] at hadv
    simp only [Option.map_some', Option.some.injEq] at hadv
    subst hadv
    refine ⟨⟨by simp [buildAdvertisement, h0], by simp [buildAdvertisement, h1]⟩, ?_⟩
    intro h0' h1'
    rw [CreateAdvertisement, hG]
    simp [buildAdvertisement, h0, h1, h0', h1']

/-- C4 witness: the concrete advertisement built from `nodeA` under a clock
frozen at `0`. -/
theorem C4_advertisement_timestamps_witness :
    advA.timestamp = 0 ∧ advA.timeToLive = 0 + 30 * 60 :=
  (C4_advertisement_timestamps [nodeA] "cid" "gw" "gwp" (fun _ => 0)
    (fun _ => 0) 0 advA rfl rfl (by decide)).1

/-- C1 counterexample: when listing the local nodes fails in the first
cycle, the task neither sleeps nor retries the next cycle — the later
successful publish in the trace never happens, so the failure is fatal to
the task rather than abandoning just that cycle. -/
theorem C1_retry_next_cycle_counterexample :
    (GenerateAdvertisementTask (fun _ => true)
        [CycleEvent.listFail, CycleEvent.publishOk]).listFailExit = true ∧
    (GenerateAdvertisementTask (fun _ => true)
        [CycleEvent.listFail, CycleEvent.publishOk]).cycleSleeps = 0 ∧
    (GenerateAdvertisementTask (fun _ => true)
        [CycleEvent.listFail, CycleEvent.publishOk]).publishes = 0 := by
  refine ⟨?_, ?_, ?_⟩ <;> decide

/-- C1 (amended): in the first cycle whose node listing fails, the task
returns at once: everything after that cycle in the trace is never
executed, and a connected task records the node-list failure as its exit
cause — the failure is fatal to the per-peer task. -/
theorem C1_node_list_failure_fatal (conn : Nat → Bool)
    (pre rest : List CycleEvent) :
    GenerateAdvertisementTask conn (pre ++ CycleEvent.listFail :: rest) =
      GenerateAdvertisementTask conn (pre ++ [CycleEvent.listFail]) ∧
    ((connectLoop conn).1 ≠ 3 →
      (GenerateAdvertisementTask conn
          (pre ++ [CycleEvent.listFail])).listFailExit = true) := by
  constructor
  · by_cases h : (connectLoop conn).1 = 3 <;>
      simp [GenerateAdvertisementTask, h, publishLoop_append_listFail]
  · intro h
    simp [GenerateAdvertisementTask, h, publishLoop_append_listFail]

/-- C1 witness: the fatal exit evaluated on a concrete trace. -/
theorem C1_node_list_failure_fatal_witness :
    GenerateAdvertisementTask (fun _ => true)
        ([] ++ CycleEvent.listFail :: [CycleEvent.publishOk]) =
      GenerateAdvertisementTask (fun _ => true)
        ([] ++ [CycleEvent.listFail]) ∧
    (GenerateAdvertisementTask (fun _ => true)
        ([] ++ [CycleEvent.listFail])).listFailExit = true :=
  ⟨(C1_node_list_failure_fatal (fun _ => true) [] [CycleEvent.publishOk]).1,
   (C1_node_list_failure_fatal (fun _ => true) [] [CycleEvent.publishOk]).2
     (by decide)⟩

/-- C8: connection establishment has a fixed budget of 3 attempts with a
one-minute delay after each failure: failing twice and succeeding on the
third attempt costs exactly 2 delay intervals and connects the task; failing
all 3 attempts ends the task without it ever entering the publish loop. -/
theorem C8_connect_retry_budget (conn : Nat → Bool) :
    (conn 0 = false → conn 1 = false → conn 2 = true →
      connectLoop conn = (2, 2) ∧
      ∀ cycles, (GenerateAdvertisementTask conn cycles).connected = true ∧
        (GenerateAdvertisementTask conn cycles).connectSleeps = 2) ∧
    (conn 0 = false → conn 1 = false → conn 2 = false →
      ∀ cycles, GenerateAdvertisementTask conn cycles =
        { connectSleeps := 3, connected := false, watcherStarts := 0,
          publishes := 0, cycleSleeps := 0, listFailExit := false }) := by
  constructor
  · intro h0 h1 h2
    have hc : connectLoop conn = (2, 2) := by
      calc connectLoop conn
          = if conn 0 then ((0 : Nat), (0 : Nat))
            else connectLoopAux conn 1 1 2 := rfl
        _ = connectLoopAux conn 1 1 2 := by rw [h0]; simp
        _ = if conn 1 then ((1 : Nat), (1 : Nat))
            else connectLoopAux conn 2 2 1 := rfl
        _ = connectLoopAux conn 2 2 1 := by rw [h1]; simp
        _ = if conn 2 then ((2 : Nat), (2 : Nat))
            else connectLoopAux conn 3 3 0 := rfl
        _ = (2, 2) := by rw [h2]; simp
    refine ⟨hc, fun cycles => ?_⟩
    constructor <;> simp [GenerateAdvertisementTask, hc]
  · intro h0 h1 h2 cycles
    have hc : connectLoop conn = (3, 3) := by
      calc connectLoop conn
          = if conn 0 then ((0 : Nat), (0 : Nat))
            else connectLoopAux conn 1 1 2 := rfl
        _ = connectLoopAux conn 1 1 2 := by rw [h0]; simp
        _ = if conn 1 then ((1 : Nat), (1 : Nat))
            else connectLoopAux conn 2 2 1 := rfl
        _ = connectLoopAux conn 2 2 1 := by rw [h1]; simp
        _ = if conn 2 then ((2 : Nat), (2 : Nat))
            else connectLoopAux conn 3 3 0 := rfl
        _ = (3, 3) := by rw [h2]; simp [connectLoopAux]
    simp [GenerateAdvertisementTask, hc]

/-- C8 witness: both retry outcomes on concrete connectors. -/
theorem C8_connect_retry_budget_witness :
    connectLoop (fun n => n == 2) = (2, 2) ∧
    GenerateAdvertisementTask (fun _ => false) [CycleEvent.publishOk] =
      { connectSleeps := 3, connected := false, watcherStarts := 0,
        publishes := 0, cycleSleeps := 0, listFailExit := false } :=
  ⟨((C8_connect_retry_budget (fun n => n == 2)).1 rfl rfl rfl).1,
   (C8_connect_retry_budget (fun _ => false)).2 rfl rfl rfl
     [CycleEvent.publishOk]⟩

/-- C9: within one task, the watcher body guarded by `sync.Once` runs
exactly once — on the first successful publish — and never again, however
many successful publishes the executed cycles contain; a task that never
connects or never publishes successfully starts it zero times.  The count
is a function of that task's own connector and trace alone. -/
theorem C9_watcher_started_once (conn : Nat → Bool)
    (cycles : List CycleEvent) :
    (GenerateAdvertisementTask conn cycles).watcherStarts =
      if (connectLoop conn).1 ≠ 3 ∧
          CycleEvent.publishOk ∈ executedCycles cycles
      then 1 else 0 := by
  by_cases h : (connectLoop conn).1 = 3
  · simp [GenerateAdvertisementTask, h]
  · simp [GenerateAdvertisementTask, h, publishLoop_watcherStarts,
      initialLoopState]

end Broadcaster
